import Mathlib

/-!
Verification of the `yandex_climate_modules` integration core:
a shallow embedding of the API client, climate classifier, polling
coordinator and value formatter, with theorems about the spec's claims.

Python dynamic values are embedded as follows: JSON scalar values become
`JVal`; `dict.get` of an optional key becomes `Option`; Python truthiness
of a string is the test `s ≠ ""`; fallible paths return `Except`.
-/

namespace YCM

/-- A JSON scalar value as it appears in a property state: number, string
or boolean (numbers are embedded exactly as rationals). -/
inductive JVal where
  | num (q : ℚ)
  | str (s : String)
  | bool (b : Bool)
deriving DecidableEq, Repr

/-- The `state` object of a device property:
`{instance, value, last_updated?}` (all fields optional in the payload). -/
structure PState where
  inst : Option String
  value : Option JVal
  lastUpdated : Option JVal
deriving DecidableEq, Repr

/-- A device property dict: an optional `state` object, plus an optional
top-level `last_updated` field (this is where `_last_updated_max` reads it). -/
structure Property where
  state : Option PState
  lastUpdated : Option JVal
deriving DecidableEq, Repr

/-- `(p.get("state") or {}).get("instance")`: the instance tag read from
inside the property's state object. -/
def stateInst (p : Property) : Option String :=
  match p.state with
  | some st => st.inst
  | none => none

/-- `(p.get("state") or {}).get("value")`. -/
def stateValue (p : Property) : Option JVal :=
  match p.state with
  | some st => st.value
  | none => none

/-! ### Climate classifier (`config_flow._is_climate_module`) -/

/-- `CLIMATE_INSTANCES` from `const.py`: the three required instance tags. -/
def climateInstances : List String := ["temperature", "humidity", "co2_level"]

/-- The loop of `_is_climate_module`: collect the truthy (non-empty)
`instance` tags found inside each property's state object. -/
def collectInstances (props : List Property) : List String :=
  props.filterMap fun p =>
    match stateInst p with
    | some i => if i = "" then none else some i
    | none => none

/-- `_is_climate_module(device)`: the collected instance set must contain
all of `CLIMATE_INSTANCES` (Python `issubset`; set membership coincides
with membership in the collected list). -/
def isClimateModule (props : List Property) : Bool :=
  climateInstances.all fun r => (collectInstances props).contains r

/-- Convenience constructor for a property whose state carries just an
instance tag. -/
def mkInstProp (i : String) : Property :=
  { state := some { inst := some i, value := none, lastUpdated := none },
    lastUpdated := none }

/-! ### Value formatter (`sensor._find_prop`, `YandexClimateSensor.native_value`) -/

/-- `_find_prop(properties, instance)`: first property whose in-state
instance tag equals the requested key. -/
def findProp (props : List Property) (key : String) : Option Property :=
  match props with
  | [] => none
  | p :: ps => if stateInst p = some key then some p else findProp ps key

/-- Digits to a natural number; an empty digit list reads as 0. -/
def natOfDigits (cs : List Char) : ℕ :=
  cs.foldl (fun n c => 10 * n + (c.toNat - 48)) 0

/-- Unsigned decimal literal `digits`, `digits.`, `.digits` or
`digits.digits` as an exact rational. -/
def parseUnsignedDec (cs : List Char) : Option ℚ :=
  let intPart := cs.takeWhile Char.isDigit
  let rest := cs.dropWhile Char.isDigit
  match rest with
  | [] => if intPart.isEmpty then none else some (natOfDigits intPart : ℚ)
  | '.' :: frac =>
    if frac.all Char.isDigit && !(intPart.isEmpty && frac.isEmpty) then
      some ((natOfDigits intPart : ℚ) + (natOfDigits frac : ℚ) / 10 ^ frac.length)
    else none
  | _ => none

/-- Python `float(str)`: surrounding whitespace is ignored, one optional
sign, then a plain decimal literal. Exponent forms, `inf`/`nan` and digit
underscores are not modelled and give `none`; `none` models `float()`
raising `ValueError`. -/
def pyFloatOfString (s : String) : Option ℚ :=
  let cs := ((s.toList.dropWhile Char.isWhitespace).reverse.dropWhile
    Char.isWhitespace).reverse
  match cs with
  | '+' :: rest => parseUnsignedDec rest
  | '-' :: rest => (parseUnsignedDec rest).map Neg.neg
  | _ => parseUnsignedDec cs

/-- Python `float(val)` on a JSON scalar: numbers pass through exactly,
booleans convert (`bool` is an `int` subclass), strings parse as decimal
literals. -/
def pyFloat : JVal → Option ℚ
  | .num q => some q
  | .bool b => some (if b then 1 else 0)
  | .str s => pyFloatOfString s

/-- Python `round()` to zero digits on an exact rational: nearest integer,
ties to even. (The claims' values are exactly representable; binary
floating-point representation error is not modelled.) -/
def rheInt (x : ℚ) : ℤ :=
  let f := ⌊x⌋
  let r := x - f
  if r < 1 / 2 then f
  else if 1 / 2 < r then f + 1
  else if f % 2 = 0 then f else f + 1

/-- Python `round(x, 1)`: round to one decimal place. -/
def roundQ1 (x : ℚ) : ℚ := (rheInt (x * 10) : ℚ) / 10

/-- A formatted sensor value: a one-decimal rational (temperature,
humidity), an integer (co2), or the raw scalar passed through. -/
inductive FmtVal where
  | qv (q : ℚ)
  | iv (z : ℤ)
  | raw (v : JVal)
deriving DecidableEq, Repr

/-- `YandexClimateSensor.native_value` given the device payload's property
list and the sensor's instance key. `.ok none` is Python `None`;
`.error ()` is an uncaught `float()` conversion error. -/
def nativeValue (props : List Property) (inst : String) : Except Unit (Option FmtVal) :=
  match findProp props inst with
  | none => .ok none
  | some p =>
    match stateValue p with
    | none => .ok none
    | some v =>
      if inst == "temperature" || inst == "humidity" then
        match pyFloat v with
        | some q => .ok (some (.qv (roundQ1 q)))
        | none => .error ()
      else if inst == "co2_level" then
        match pyFloat v with
        | some q => .ok (some (.iv (rheInt q)))
        | none => .error ()
      else .ok (some (.raw v))

/-! ### Last-updated derivation (`sensor._last_updated_max`) -/

/-- `isinstance(lu, (int, float))` plus `float(lu)`: numbers pass through,
booleans count as numeric (`bool` is an `int` subclass), anything else is
rejected. -/
def asNumLoose : JVal → Option ℚ
  | .num q => some q
  | .bool b => some (if b then 1 else 0)
  | .str _ => none

/-- The numeric values collected by `_last_updated_max`: each property's
top-level `last_updated` field, keeping only numeric ones. -/
def numericLastUpdateds (props : List Property) : List ℚ :=
  props.filterMap fun p => p.lastUpdated.bind asNumLoose

/-- `_last_updated_max(properties)`: `max` of the collected values, `None`
when none were collected. Reads the top-level `last_updated` of each
property, not the one inside its `state` object. -/
def lastUpdatedMax (props : List Property) : Option ℚ :=
  match numericLastUpdateds props with
  | [] => none
  | v :: vs => some (vs.foldl max v)

/-- Modelled from the spec: the data model places `last_updated` inside
the property's `state` object, so the spec-side derivation takes the
maximum over numeric `last_updated` fields read from inside `state`. -/
def specStateLastUpdatedMax (props : List Property) : Option ℚ :=
  match props.filterMap (fun p =>
      (p.state.bind fun st => st.lastUpdated).bind asNumLoose) with
  | [] => none
  | v :: vs => some (vs.foldl max v)

/-! ### Credential normalization (`api._normalize_token`) -/

/-- Python `str.lower()` on one character, restricted to the alphabets the
program compares: ASCII `A`-`Z` and Cyrillic `А`-`Я` (U+0410..U+042F) map
down by the usual offsets, `Ё` maps to `ё`; other characters are kept. -/
def pyLowerChar (c : Char) : Char :=
  if 'A' ≤ c ∧ c ≤ 'Z' then Char.ofNat (c.toNat + 32)
  else if c.toNat ≥ 0x410 ∧ c.toNat ≤ 0x42F then Char.ofNat (c.toNat + 0x20)
  else if c.toNat = 0x401 then Char.ofNat 0x451
  else c

/-- Python `str.lower()` over the characters of a string. -/
def pyLower (cs : List Char) : List Char := cs.map pyLowerChar

/-- Python `str.strip()`: drop leading and trailing whitespace. -/
def pyStrip (cs : List Char) : List Char :=
  ((cs.dropWhile Char.isWhitespace).reverse.dropWhile Char.isWhitespace).reverse

/-- Boolean test that `pre` begins the list `cs` (`str.startswith`). -/
def beginsWith : List Char → List Char → Bool
  | [], _ => true
  | _ :: _, [] => false
  | p :: ps, c :: cs => p == c && beginsWith ps cs

/-- Python `s.split(None, 1)[1]` on a stripped string known to contain
whitespace after its first token: drop the first run of non-whitespace,
then the following run of whitespace. -/
def afterFirstToken (cs : List Char) : List Char :=
  (cs.dropWhile (fun c => !c.isWhitespace)).dropWhile Char.isWhitespace

/-- `_normalize_token(token)`: strip surrounding whitespace; when the
lowercased result starts with `"bearer "`, keep only what follows the
first whitespace run, stripped again. -/
def normalizeToken (cs : List Char) : List Char :=
  let t := pyStrip cs
  if beginsWith "bearer ".toList (pyLower t) then pyStrip (afterFirstToken t)
  else t

/-! ### Device enumeration (`api.YandexIoTClient.list_device_ids`) -/

/-- One element of the `/user/info` flat `devices` list: only its optional
`id` field matters here. -/
structure InfoDeviceEntry where
  id : Option String
deriving DecidableEq, Repr

/-- One element of the `/user/info` `rooms` list: its `devices` field is a
list of device-id strings. -/
structure InfoRoom where
  devices : Option (List String)
deriving DecidableEq, Repr

/-- The `/user/info` payload fields that `list_device_ids` reads. -/
structure InfoPayload where
  devices : Option (List InfoDeviceEntry)
  rooms : Option (List InfoRoom)
deriving DecidableEq, Repr

/-- The two scanning loops of `list_device_ids`: truthy ids from the flat
`devices` list first, then the ids of every room's `devices` list. -/
def collectIds (info : InfoPayload) : List String :=
  ((info.devices.getD []).filterMap fun d =>
    match d.id with
    | some s => if s = "" then none else some s
    | none => none) ++
  ((info.rooms.getD []).map fun r => (r.devices.getD []).filter (· ≠ "")).flatten

/-- The `seen`/`out` de-duplication loop at the end of `list_device_ids`:
keep each id's first occurrence. -/
def dedupFirst (seen : List String) : List String → List String
  | [] => []
  | x :: xs => if x ∈ seen then dedupFirst seen xs else x :: dedupFirst (x :: seen) xs

/-- `list_device_ids()` applied to a fetched `/user/info` payload. -/
def listDeviceIds (info : InfoPayload) : List String :=
  dedupFirst [] (collectIds info)

/-! ### HTTP status and parse handling (`api.YandexIoTClient._get_json`) -/

/-- The error taxonomy of `api.py`: `YandexIoTAuthError` (401),
`YandexIoTPermissionError` (403) and the generic `YandexIoTApiError`. -/
inductive ApiKind where
  | auth
  | perm
  | api
deriving DecidableEq, Repr

/-- A raised API error: its kind and its message string. -/
structure ApiErr where
  kind : ApiKind
  msg : String
deriving DecidableEq, Repr

/-- Python `text[:300]`: the first 300 characters of the response body. -/
def take300 (s : String) : String := String.mk (s.toList.take 300)

/-- `_get_json` once the response status and body text are known. The
transport is abstracted into the inputs; `parse` stands for
`await resp.json()`, returning the parsed payload or a parse-error
message. -/
def getJson (J : Type) (status : ℕ) (text : String)
    (parse : String → Except String J) : Except ApiErr J :=
  if status = 401 then
    .error ⟨.auth, "HTTP 401 Unauthorized: " ++ take300 text⟩
  else if status = 403 then
    .error ⟨.perm, "HTTP 403 Forbidden: " ++ take300 text⟩
  else if status ≥ 400 then
    .error ⟨.api, "HTTP " ++ toString status ++ ": " ++ take300 text⟩
  else
    match parse text with
    | .ok j => .ok j
    | .error e => .error ⟨.api, "Bad JSON: " ++ e ++ ". Body: " ++ take300 text⟩

/-! ### Per-device fetch (`api.YandexIoTClient.get_device`) -/

/-- The dataclass `YandexDevice`. -/
structure Device where
  id : String
  name : String
  room : Option String
  properties : List Property
deriving DecidableEq, Repr

/-- The `/devices/{id}` payload fields that `get_device` reads. -/
structure DevicePayload where
  status : Option String
  id : Option String
  name : Option String
  room : Option String
  properties : Option (List Property)
deriving DecidableEq, Repr

/-- How `get_device` can fail on a parsed payload: `YandexIoTApiError`
for a status other than `"ok"`, or an untyped `KeyError` when the `"id"`
key is missing (`data["id"]` is a bare subscript). -/
inductive GetDeviceErr where
  | api (msg : String)
  | keyError (key : String)
deriving DecidableEq, Repr

/-- `get_device(device_id)` applied to a parsed payload: check
`status == "ok"`, read `data["id"]` (KeyError if missing), fall back to
the requested id when `name` is falsy, default `properties` to `[]`. -/
def getDevice (deviceId : String) (data : DevicePayload) : Except GetDeviceErr Device :=
  if data.status ≠ some "ok" then
    .error (.api "Unexpected response")
  else
    match data.id with
    | none => .error (.keyError "id")
    | some i =>
      .ok { id := i,
            name := match data.name with
                    | some n => if n = "" then deviceId else n
                    | none => deviceId,
            room := data.room,
            properties := data.properties.getD [] }

/-! ### Snapshot payload dicts and the coordinator
(`coordinator.YandexClimateCoordinator._async_update_data`) -/

/-- A value stored in a snapshot payload dict. -/
inductive PayVal where
  | str (s : String)
  | optStr (o : Option String)
  | props (ps : List Property)
deriving DecidableEq, Repr

/-- A Python dict embedded as an association list in insertion order. -/
def Dict (α : Type) : Type := List (String × α)

/-- `d.get(k)`: the value at the first matching key, else `None`. -/
def dictGet {α : Type} (d : Dict α) (k : String) : Option α :=
  match d with
  | [] => none
  | (k', v) :: rest => if k' = k then some v else dictGet rest k

/-- `d[k] = v`: replace the value at an existing key in place, otherwise
append the new binding (Python dicts keep first-insertion order). -/
def dictSet {α : Type} (d : Dict α) (k : String) (v : α) : Dict α :=
  match d with
  | [] => [(k, v)]
  | (k', v') :: rest => if k' = k then (k, v) :: rest else (k', v') :: dictSet rest k v

/-- The keys of a dict, in order. -/
def dictKeys {α : Type} (d : Dict α) : List String := d.map Prod.fst

/-- The per-device payload dict the coordinator stores:
`{"name": ..., "room": ..., "properties": ...}`. Note there is no
`"room_name"` key. -/
def coordinatorEntry (dev : Device) : Dict PayVal :=
  [("name", .str dev.name), ("room", .optStr dev.room), ("properties", .props dev.properties)]

/-- A snapshot: the dict from device id to payload dict built by one
successful update cycle. -/
def Snapshot : Type := Dict (Dict PayVal)

/-- The `out[dev.id] = {...}` loop over the fetched devices. -/
def buildSnapshot (devs : List Device) : Snapshot :=
  devs.foldl (fun out dev => dictSet out dev.id (coordinatorEntry dev)) []

/-- `asyncio.gather` over the per-device fetches: all results in order, or
the error of the earliest failing fetch (fail-fast; `gather` surfaces one
exception and the coordinator wraps just that one). -/
def fetchAll (fetch : String → Except String Device) : List String → Except String (List Device)
  | [] => .ok []
  | i :: is =>
    match fetch i with
    | .error e => .error e
    | .ok d => (fetchAll fetch is).map (d :: ·)

/-- `_async_update_data`: gather every configured device, build the fresh
snapshot, and turn any exception into `UpdateFailed(str(e))` — the error
value here is that message. -/
def asyncUpdateData (fetch : String → Except String Device) (deviceIds : List String) :
    Except String Snapshot :=
  match fetchAll fetch deviceIds with
  | .error e => .error e
  | .ok devs => .ok (buildSnapshot devs)

/-- Modelled from the spec: the retention rule of the surrounding update
coordinator (Home Assistant's `DataUpdateCoordinator`, not part of this
repository) — on a failed cycle the previous snapshot is kept and the
failure message is surfaced; on success the new snapshot replaces it. -/
def coordStep (prev : Option Snapshot) (result : Except String Snapshot) :
    Option Snapshot × Option String :=
  match result with
  | .error e => (prev, some e)
  | .ok s => (some s, none)

/-! ### Entity availability and display name (`sensor.py`) -/

/-- `YandexClimateBase.available`:
`self.device_id in (self.coordinator.data or {})`. -/
def availableB (data : Option Snapshot) (deviceId : String) : Bool :=
  (dictKeys (data.getD [])).contains deviceId

/-- Python `device_id[-5:]`: the last five characters (the whole string
when shorter). -/
def tail5 (s : String) : String := String.mk (s.toList.drop (s.toList.length - 5))

/-- `_normalize_device_name(name)`: the one hardcoded localized
substitution. -/
def normalizeDeviceName (name : List Char) : List Char :=
  if pyLower (pyStrip name) = "умное устройство".toList then
    "Климатическая станция".toList
  else name

/-- The base display name computed identically in
`YandexClimateSensor.name` and `YandexClimateBase.device_info`: normalized
name, optional room suffix from the payload's `"room_name"` key, and the
last-5-characters tail of the device id (`device_id[-5:]`). -/
def deviceDisplayName (payload : Dict PayVal) (deviceId : String) : String :=
  let rawName := match dictGet payload "name" with
    | some (.str n) => if n = "" then "Yandex Climate Module" else n
    | _ => "Yandex Climate Module"
  let base := String.mk (normalizeDeviceName rawName.toList)
  let room : Option String := match dictGet payload "room_name" with
    | some (.str r) => if r = "" then none else some r
    | some (.optStr (some r)) => if r = "" then none else some r
    | _ => none
  let tail := tail5 deviceId
  match room with
  | some r => base ++ " " ++ r ++ " (" ++ tail ++ ")"
  | none => base ++ " (" ++ tail ++ ")"

/-- Modelled from the spec: the display name the claim describes — the
normalized remote name, then the device's room when it has one, then the
device-id tail suffix. -/
def specDisplayName (dev : Device) : String :=
  let base := String.mk (normalizeDeviceName dev.name.toList)
  let tail := tail5 dev.id
  match dev.room with
  | some r => base ++ " " ++ r ++ " (" ++ tail ++ ")"
  | none => base ++ " (" ++ tail ++ ")"

/-- The title component of `INST_TO_META`. -/
def instTitle (inst : String) : String :=
  if inst = "temperature" then "Temperature"
  else if inst = "humidity" then "Humidity"
  else "CO2"

/-- `YandexClimateSensor.name`: base display name plus the instance
title. -/
def sensorEntityName (payload : Dict PayVal) (deviceId : String) (inst : String) : String :=
  deviceDisplayName payload deviceId ++ " " ++ instTitle inst

/-- Convenience constructor: a property carrying an instance tag and a
value inside its state. -/
def mkValProp (i : String) (v : JVal) : Property :=
  { state := some { inst := some i, value := some v, lastUpdated := none },
    lastUpdated := none }

/-- Convenience constructor: a property with only a top-level
`last_updated` value. -/
def mkLU (v : JVal) : Property :=
  { state := none, lastUpdated := some v }

end YCM

namespace YCM

/-! ## Supporting lemmas -/

theorem dropWhile_idem (p : Char → Bool) (l : List Char) :
    List.dropWhile p (List.dropWhile p l) = List.dropWhile p l := by
  induction l with
  | nil => simp
  | cons a t ih =>
    by_cases h : p a <;> simp [List.dropWhile_cons, h, ih]

theorem dropWhile_take (p : Char → Bool) (l : List Char)
    (h : List.dropWhile p l = l) (n : ℕ) :
    List.dropWhile p (l.take n) = l.take n := by
  cases l with
  | nil => simp
  | cons a t =>
    have hpa : p a = false := by
      by_cases hp : p a
      · rw [List.dropWhile_cons, if_pos hp] at h
        have hlen := congrArg List.length h
        have hle : (List.dropWhile p t).length ≤ t.length :=
          (List.dropWhile_sublist p).length_le
        simp at hlen
        omega
      · simpa using hp
    cases n with
    | zero => simp
    | succ n => simp [List.dropWhile_cons, hpa]

theorem pyStrip_idem (cs : List Char) : pyStrip (pyStrip cs) = pyStrip cs := by
  unfold pyStrip
  set A := cs.dropWhile Char.isWhitespace with hA
  set C := A.reverse.dropWhile Char.isWhitespace with hC
  have hAA : A.dropWhile Char.isWhitespace = A := dropWhile_idem _ cs
  have hCC : C.dropWhile Char.isWhitespace = C := dropWhile_idem _ A.reverse
  have hBpre : C.reverse <+: A := by
    have hsuf : C <:+ A.reverse := List.dropWhile_suffix _
    have hrev : C.reverse <+: A.reverse.reverse := List.reverse_prefix.mpr hsuf
    rwa [List.reverse_reverse] at hrev
  have hBtake : C.reverse = A.take C.reverse.length :=
    List.prefix_iff_eq_take.mp hBpre
  have hB : C.reverse.dropWhile Char.isWhitespace = C.reverse := by
    rw [hBtake]
    exact dropWhile_take _ _ hAA _
  rw [hB, List.reverse_reverse, hCC]

theorem normalizeToken_stripped (cs : List Char) :
    pyStrip (normalizeToken cs) = normalizeToken cs := by
  simp only [normalizeToken]
  split
  · exact pyStrip_idem _
  · exact pyStrip_idem _

end YCM

namespace YCM

theorem lastUpdatedMax_eq_maxQ (props : List Property) :
    lastUpdatedMax props = (numericLastUpdateds props).max? := by
  unfold lastUpdatedMax
  cases h : numericLastUpdateds props with
  | nil => rfl
  | cons v vs => rw [List.max?_cons']

/-! ## Claim theorems -/

/-- C2: the climate-module classifier returns true iff the collected
non-empty in-state instance tags include every member of the required set
{temperature, humidity, co2_level}; a device with those three plus
battery_level classifies true, one with only temperature and humidity
classifies false, and one with an empty (or missing, hence defaulted
empty) property list classifies false. -/
theorem c2_climate_classifier :
    (∀ props : List Property,
        isClimateModule props = true ↔ climateInstances ⊆ collectInstances props)
    ∧ isClimateModule [mkInstProp "temperature", mkInstProp "humidity",
        mkInstProp "co2_level", mkInstProp "battery_level"] = true
    ∧ isClimateModule [mkInstProp "temperature", mkInstProp "humidity"] = false
    ∧ isClimateModule [] = false := by
  refine ⟨fun props => ?_, by decide, by decide, by decide⟩
  simp [isClimateModule, climateInstances, List.all_eq_true, List.cons_subset]

/-- Witness for C2: the classifier accepts a concrete device exposing the
three required instances plus an extra one. -/
theorem c2_climate_classifier_witness :
    isClimateModule [mkInstProp "temperature", mkInstProp "co2_level",
      mkInstProp "humidity", mkValProp "pressure" (.num 1000)] = true :=
  (c2_climate_classifier.1 _).mpr (by decide)

/-- C4 (amended): the derived most-recent-update value is the maximum of
the numeric `last_updated` fields read from each property's top level
(`p.get("last_updated")`), not from inside its `state` object; it is
absent exactly when no property carries a numeric top-level
`last_updated`; top-level values [100, 250, 80] derive 250. -/
theorem c4_last_updated_top_level :
    (∀ props : List Property,
        lastUpdatedMax props = none ↔ ∀ p ∈ props, p.lastUpdated.bind asNumLoose = none)
    ∧ (∀ (props : List Property) (m : ℚ),
        lastUpdatedMax props = some m ↔
          (m ∈ numericLastUpdateds props ∧ ∀ v ∈ numericLastUpdateds props, v ≤ m))
    ∧ lastUpdatedMax [mkLU (.num 100), mkLU (.num 250), mkLU (.num 80)] = some 250
    ∧ lastUpdatedMax [mkValProp "temperature" (.num 21), mkLU (.str "yesterday")] = none := by
  refine ⟨fun props => ?_, fun props m => ?_, ?_, ?_⟩
  · rw [lastUpdatedMax_eq_maxQ, List.max?_eq_none_iff, numericLastUpdateds,
      List.filterMap_eq_nil_iff]
  · rw [lastUpdatedMax_eq_maxQ]
    constructor
    · intro h
      exact ⟨List.max?_mem max_choice h,
        fun v hv => (List.max?_le_iff (fun a b c => max_le_iff) h).1 le_rfl v hv⟩
    · rintro ⟨h₁, h₂⟩
      cases hq : (numericLastUpdateds props).max? with
      | none =>
        rw [List.max?_eq_none_iff] at hq
        simp [hq] at h₁
      | some a =>
        have ha := List.max?_mem max_choice hq
        have hle := (List.max?_le_iff (fun a b c => max_le_iff) hq).1 le_rfl
        rw [le_antisymm (h₂ a ha) (hle m h₁)]
  · simp [lastUpdatedMax, numericLastUpdateds, asNumLoose, mkLU]
    norm_num [max_def]
  · simp [lastUpdatedMax, numericLastUpdateds, asNumLoose, mkLU, mkValProp]

/-- Witness for C4: a property list with no top-level `last_updated`
derives absence, through the amended theorem. -/
theorem c4_last_updated_top_level_witness :
    lastUpdatedMax [mkValProp "temperature" (.num 1)] = none :=
  (c4_last_updated_top_level.1 _).mpr (by simp [mkValProp])

/-- Counterexample for C4 as stated: a property whose numeric
`last_updated` (epoch 100) sits inside its `state` object, where the
claim's data model puts it. The spec-side derivation sees 100, but the
code derives absence because `_last_updated_max` reads the property's
top level. -/
theorem c4_state_last_updated_ignored :
    specStateLastUpdatedMax [{ state := some { inst := some "temperature", value := some (.num 21), lastUpdated := some (.num 100) }, lastUpdated := none }] = some 100
    ∧ lastUpdatedMax [{ state := some { inst := some "temperature", value := some (.num 21), lastUpdated := some (.num 100) }, lastUpdated := none }] = none := by
  constructor
  · simp [specStateLastUpdatedMax, asNumLoose]
  · simp [lastUpdatedMax, numericLastUpdateds]

/-- C5 (amended): credential normalization strips surrounding whitespace
and one case-insensitive `"Bearer "` prefix per application; it maps
`"Bearer  abc "` to `"abc"` and `" abc "` to `"abc"`, and it is idempotent
on every input whose normalized form does not itself begin
(case-insensitively) with `"bearer "`. -/
theorem c5_normalize_token_amended :
    (∀ cs : List Char,
        beginsWith "bearer ".toList (pyLower (normalizeToken cs)) = false →
        normalizeToken (normalizeToken cs) = normalizeToken cs)
    ∧ normalizeToken "Bearer  abc ".toList = "abc".toList
    ∧ normalizeToken " abc ".toList = "abc".toList := by
  refine ⟨fun cs h => ?_, by decide, by decide⟩
  conv_lhs => rw [normalizeToken]
  rw [normalizeToken_stripped, h]
  simp

/-- Witness for C5: idempotence applies at the concrete input `" abc "`,
whose normalized form does not start with the prefix. -/
theorem c5_normalize_token_witness :
    normalizeToken (normalizeToken " abc ".toList) = normalizeToken " abc ".toList :=
  c5_normalize_token_amended.1 _ (by decide)

/-- Counterexample for C5 as stated: normalization is not idempotent on
`"Bearer bearer abc"` — one application leaves `"bearer abc"`, a second
strips the remaining prefix. -/
theorem c5_normalize_token_counterexample :
    normalizeToken (normalizeToken "Bearer bearer abc".toList) ≠
      normalizeToken "Bearer bearer abc".toList := by decide

/-- C9: an entity is available exactly when its device id is a key of the
latest snapshot (a missing snapshot counts as empty); the check is a
total boolean, so absence yields unavailability, never an error. -/
theorem c9_availability :
    (∀ (data : Option Snapshot) (did : String),
        availableB data did = true ↔ did ∈ dictKeys (data.getD []))
    ∧ (∀ did : String, availableB none did = false) :=
  ⟨fun data did => by simp [availableB], fun _ => rfl⟩

/-- Witness for C9: a device present in a concrete snapshot is available. -/
theorem c9_availability_witness :
    availableB (some ([("dev1", [])] : Snapshot)) "dev1" = true :=
  (c9_availability.1 _ _).mpr (by simp [dictKeys])

end YCM

namespace YCM

theorem findProp_eq_findq (props : List Property) (key : String) :
    findProp props key = props.find? fun p => stateInst p == some key := by
  induction props with
  | nil => rfl
  | cons p ps ih =>
    by_cases h : stateInst p = some key <;>
      simp [findProp, List.find?_cons, h, ih]

/-- C3: the formatted sensor value comes from the first property whose
in-state instance tag equals the requested key; no match or an absent
state/value yields `None` (never zero, never an error); a numeric raw
value is rounded to one decimal for temperature and humidity and to the
nearest integer for co2_level, any other instance passes the raw value
through; 21.36 formats to 21.4, 55.04 to 55.0 and 812.6 to 813. -/
theorem c3_native_value_formatting :
    (∀ (props : List Property) (key : String),
        findProp props key = props.find? fun p => stateInst p == some key)
    ∧ (∀ (props : List Property) (key : String),
        (∀ p ∈ props, stateInst p ≠ some key) → nativeValue props key = .ok none)
    ∧ (∀ (props : List Property) (key : String) (p : Property),
        findProp props key = some p → stateValue p = none →
        nativeValue props key = .ok none)
    ∧ (∀ (props : List Property) (key : String) (p : Property) (q : ℚ),
        findProp props key = some p → stateValue p = some (.num q) →
        key = "temperature" ∨ key = "humidity" →
        nativeValue props key = .ok (some (.qv (roundQ1 q))))
    ∧ (∀ (props : List Property) (p : Property) (q : ℚ),
        findProp props "co2_level" = some p → stateValue p = some (.num q) →
        nativeValue props "co2_level" = .ok (some (.iv (rheInt q))))
    ∧ (∀ (props : List Property) (key : String) (p : Property) (v : JVal),
        findProp props key = some p → stateValue p = some v →
        key ≠ "temperature" → key ≠ "humidity" → key ≠ "co2_level" →
        nativeValue props key = .ok (some (.raw v)))
    ∧ nativeValue [mkValProp "temperature" (.num (2136/100))] "temperature"
        = .ok (some (.qv (214/10)))
    ∧ nativeValue [mkValProp "humidity" (.num (5504/100))] "humidity"
        = .ok (some (.qv 55))
    ∧ nativeValue [mkValProp "co2_level" (.num (8126/10))] "co2_level"
        = .ok (some (.iv 813)) := by
  refine ⟨findProp_eq_findq, fun props key h => ?_, fun props key p h1 h2 => ?_,
    fun props key p q h1 h2 h3 => ?_, fun props p q h1 h2 => ?_,
    fun props key p v h1 h2 h3 h4 h5 => ?_, ?_, ?_, ?_⟩
  · have hn : findProp props key = none := by
      rw [findProp_eq_findq, List.find?_eq_none]
      intro p hp
      simp [h p hp]
    simp [nativeValue, hn]
  · simp [nativeValue, h1, h2]
  · rcases h3 with h3 | h3 <;> subst h3 <;> simp [nativeValue, h1, h2, pyFloat]
  · simp [nativeValue, h1, h2, pyFloat]
  · simp [nativeValue, h1, h2, h3, h4, h5]
  · simp [nativeValue, findProp, stateInst, stateValue, mkValProp, pyFloat]
    norm_num [roundQ1, rheInt]
  · simp [nativeValue, findProp, stateInst, stateValue, mkValProp, pyFloat]
    norm_num [roundQ1, rheInt]
  · simp [nativeValue, findProp, stateInst, stateValue, mkValProp, pyFloat]
    norm_num [rheInt]

/-- Witness for C3: the humidity formatting clause applied to a concrete
one-property list with raw value 50. -/
theorem c3_native_value_formatting_witness :
    nativeValue [mkValProp "humidity" (.num 50)] "humidity"
      = .ok (some (.qv (roundQ1 50))) :=
  c3_native_value_formatting.2.2.2.1 _ _ _ 50 rfl rfl (Or.inr rfl)

end YCM

namespace YCM

theorem dedupFirst_mem (l : List String) (seen : List String) (x : String) :
    x ∈ dedupFirst seen l ↔ (x ∈ l ∧ x ∉ seen) := by
  induction l generalizing seen with
  | nil => simp [dedupFirst]
  | cons a t ih =>
    by_cases h : a ∈ seen
    · rw [dedupFirst, if_pos h, ih]
      constructor
      · rintro ⟨hx, hn⟩; exact ⟨List.mem_cons_of_mem a hx, hn⟩
      · rintro ⟨hx, hn⟩
        rcases List.mem_cons.mp hx with rfl | hx
        · exact absurd h hn
        · exact ⟨hx, hn⟩
    · rw [dedupFirst, if_neg h]
      simp only [List.mem_cons, ih]
      constructor
      · rintro (rfl | ⟨hx, hn⟩)
        · exact ⟨Or.inl rfl, h⟩
        · exact ⟨Or.inr hx, fun hs => hn (Or.inr hs)⟩
      · rintro ⟨rfl | hx, hn⟩
        · exact Or.inl rfl
        · by_cases hxa : x = a
          · exact Or.inl hxa
          · exact Or.inr ⟨hx, fun hs => hs.elim hxa hn⟩

theorem dedupFirst_nodup (l : List String) (seen : List String) :
    (dedupFirst seen l).Nodup := by
  induction l generalizing seen with
  | nil => exact List.nodup_nil
  | cons a t ih =>
    by_cases h : a ∈ seen
    · rw [dedupFirst, if_pos h]; exact ih seen
    · rw [dedupFirst, if_neg h]
      refine List.nodup_cons.mpr ⟨fun hmem => ?_, ih _⟩
      exact ((dedupFirst_mem t _ a).mp hmem).2 (List.mem_cons_self a seen)

theorem dedupFirst_sublist (l : List String) (seen : List String) :
    (dedupFirst seen l).Sublist l := by
  induction l generalizing seen with
  | nil => exact List.Sublist.refl []
  | cons a t ih =>
    by_cases h : a ∈ seen
    · rw [dedupFirst, if_pos h]
      exact (ih seen).trans (List.sublist_cons_self a t)
    · rw [dedupFirst, if_neg h]
      exact List.cons_sublist_cons.mpr (ih _)

/-- C6: `list_device_ids` returns the flat-list ids followed by the
room-group ids, de-duplicated first-seen-wins: the output has no
duplicates, is a subsequence of the concatenated scan (so first-seen
order is preserved), contains exactly the scanned ids, and flat ids
[a, b] with room ids [b, c] yield [a, b, c]. -/
theorem c6_list_device_ids :
    (∀ info : InfoPayload, (listDeviceIds info).Nodup)
    ∧ (∀ info : InfoPayload, (listDeviceIds info).Sublist (collectIds info))
    ∧ (∀ (info : InfoPayload) (s : String),
        s ∈ listDeviceIds info ↔ s ∈ collectIds info)
    ∧ listDeviceIds { devices := some [{ id := some "a" }, { id := some "b" }], rooms := some [{ devices := some ["b", "c"] }] } = ["a", "b", "c"] := by
  refine ⟨fun info => dedupFirst_nodup _ _, fun info => dedupFirst_sublist _ _,
    fun info s => ?_, by decide⟩
  rw [listDeviceIds, dedupFirst_mem]
  simp

/-- Witness for C6: the membership characterization applied to a concrete
payload where the id "c" only appears in a room group. -/
theorem c6_list_device_ids_witness :
    "c" ∈ listDeviceIds { devices := some [{ id := some "a" }], rooms := some [{ devices := some ["c"] }] } :=
  (c6_list_device_ids.2.2.1 _ "c").mpr (by decide)

end YCM

namespace YCM

/-- C7: the GET helper raises `AuthError` exactly on HTTP 401,
`PermissionError` exactly on HTTP 403, a generic `ApiError` carrying the
truncated body on any other status ≥ 400, an `ApiError` wrapping the
parse-failure message (plus truncated body) when a success-status body
fails to parse, and returns the parsed payload on a parseable body with
status < 400; the truncation keeps at most 300 characters. -/
theorem c7_get_json_taxonomy :
    (∀ (J : Type) (status : ℕ) (text : String) (parse : String → Except String J),
        ((∃ m, getJson J status text parse = .error ⟨.auth, m⟩) ↔ status = 401)
        ∧ ((∃ m, getJson J status text parse = .error ⟨.perm, m⟩) ↔ status = 403)
        ∧ (status ≠ 401 → status ≠ 403 → 400 ≤ status →
            getJson J status text parse =
              .error ⟨.api, "HTTP " ++ toString status ++ ": " ++ take300 text⟩)
        ∧ (status < 400 → ∀ j, parse text = .ok j → getJson J status text parse = .ok j)
        ∧ (status < 400 → ∀ e, parse text = .error e →
            getJson J status text parse =
              .error ⟨.api, "Bad JSON: " ++ e ++ ". Body: " ++ take300 text⟩))
    ∧ (∀ text : String, (take300 text).length ≤ 300) := by
  refine ⟨fun J status text parse => ?_, fun text => by simp [take300]⟩
  by_cases h1 : status = 401
  · subst h1; simp [getJson]
  · by_cases h2 : status = 403
    · subst h2; simp [getJson]
    · by_cases h3 : 400 ≤ status
      · have h4 : ¬ status < 400 := not_lt.mpr h3
        simp [getJson, h1, h2, h3, h4]
      · have h4 : status < 400 := not_le.mp h3
        cases hp : parse text with
        | ok j => simp [getJson, h1, h2, h3, hp]
        | error e => simp [getJson, h1, h2, h3, hp]

/-- Witness for C7: a 401 response with a concrete body raises the auth
error, through the taxonomy theorem. -/
theorem c7_get_json_taxonomy_witness :
    ∃ m, getJson Unit 401 "unauthorized" (fun _ => .ok ()) = .error ⟨.auth, m⟩ :=
  ((c7_get_json_taxonomy.1 Unit 401 "unauthorized" (fun _ => .ok ())).1).mpr rfl

end YCM

namespace YCM

theorem fetchAll_ok_iff (fetch : String → Except String Device) :
    ∀ (ids : List String) (devs : List Device),
    fetchAll fetch ids = .ok devs ↔ List.Forall₂ (fun i d => fetch i = .ok d) ids devs := by
  intro ids
  induction ids with
  | nil =>
    intro devs
    cases devs <;> simp [fetchAll]
  | cons i is ih =>
    intro devs
    cases hf : fetch i with
    | error e =>
      cases devs <;> simp [fetchAll, hf]
    | ok d0 =>
      cases hrest : fetchAll fetch is with
      | error e =>
        cases devs with
        | nil => simp [fetchAll, hf, hrest, Except.map]
        | cons d ds =>
          simp [fetchAll, hf, hrest, Except.map, List.forall₂_cons, ← ih ds]
      | ok ds0 =>
        cases devs with
        | nil => simp [fetchAll, hf, hrest, Except.map, List.forall₂_cons]
        | cons d ds =>
          simp [fetchAll, hf, hrest, Except.map, List.forall₂_cons, ← ih ds]

theorem fetchAll_total_ok (fetch : String → Except String Device) (ids : List String)
    (h : ∀ i ∈ ids, ∃ d, fetch i = .ok d) :
    ∃ devs, fetchAll fetch ids = .ok devs := by
  induction ids with
  | nil => exact ⟨[], rfl⟩
  | cons i is ih =>
    obtain ⟨d, hd⟩ := h i (List.mem_cons_self i is)
    obtain ⟨devs, hdevs⟩ := ih fun j hj => h j (List.mem_cons_of_mem i hj)
    exact ⟨d :: devs, by simp [fetchAll, hd, hdevs, Except.map]⟩

theorem fetchAll_first_error (fetch : String → Except String Device)
    (pre : List String) (b : String) (post : List String) (m : String)
    (hpre : ∀ i ∈ pre, ∃ d, fetch i = .ok d) (hb : fetch b = .error m) :
    fetchAll fetch (pre ++ b :: post) = .error m := by
  induction pre with
  | nil => simp [fetchAll, hb]
  | cons i is ih =>
    obtain ⟨d, hd⟩ := hpre i (List.mem_cons_self i is)
    have hrest := ih fun j hj => hpre j (List.mem_cons_of_mem i hj)
    simp [fetchAll, hd, hrest, Except.map]

theorem forall₂_exists_of_mem {R : String → Device → Prop} :
    ∀ {l1 : List String} {l2 : List Device}, List.Forall₂ R l1 l2 →
      ∀ a ∈ l1, ∃ b, R a b := by
  intro l1 l2 h
  induction h with
  | nil => intro a ha; cases ha
  | cons hR hRest ih =>
    intro a ha
    rcases List.mem_cons.mp ha with rfl | ha'
    · exact ⟨_, hR⟩
    · exact ih a ha'

theorem dictGet_dictSet_self {α : Type} (d : Dict α) (k : String) (v : α) :
    dictGet (dictSet d k v) k = some v := by
  induction d with
  | nil => simp [dictSet, dictGet]
  | cons kv rest ih =>
    obtain ⟨k', v'⟩ := kv
    by_cases h : k' = k <;> simp [dictSet, dictGet, h, ih]

theorem dictGet_dictSet_ne {α : Type} (d : Dict α) (k x : String) (v : α) (h : x ≠ k) :
    dictGet (dictSet d k v) x = dictGet d x := by
  induction d with
  | nil => simp [dictSet, dictGet, Ne.symm h]
  | cons kv rest ih =>
    obtain ⟨k', v'⟩ := kv
    by_cases hk : k' = k
    · subst hk
      simp [dictSet, dictGet, Ne.symm h]
    · by_cases hx : k' = x <;> simp [dictSet, dictGet, hk, hx, h, ih]

theorem dictKeys_dictSet_mem {α : Type} (d : Dict α) (k x : String) (v : α) :
    x ∈ dictKeys (dictSet d k v) ↔ (x ∈ dictKeys d ∨ x = k) := by
  induction d with
  | nil => simp [dictSet, dictKeys]
  | cons kv rest ih =>
    obtain ⟨k', v'⟩ := kv
    simp only [dictKeys] at ih ⊢
    by_cases h : k' = k
    · subst h
      simp [dictSet, List.map_cons, List.mem_cons]
      tauto
    · simp only [dictSet, if_neg h, List.map_cons, List.mem_cons, ih]
      tauto

theorem buildSnapshot_aux_keys (devs : List Device) (acc : Snapshot) (k : String) :
    k ∈ dictKeys (devs.foldl (fun out dev => dictSet out dev.id (coordinatorEntry dev)) acc)
      ↔ (k ∈ dictKeys acc ∨ k ∈ devs.map Device.id) := by
  induction devs generalizing acc with
  | nil => simp
  | cons d ds ih =>
    simp only [List.foldl_cons, ih, dictKeys_dictSet_mem, List.map_cons, List.mem_cons]
    tauto

theorem buildSnapshot_keys (devs : List Device) (k : String) :
    k ∈ dictKeys (buildSnapshot devs) ↔ k ∈ devs.map Device.id := by
  have h := buildSnapshot_aux_keys devs [] k
  simpa [buildSnapshot, dictKeys] using h

theorem buildSnapshot_aux_untouched (devs : List Device) (acc : Snapshot) (k : String)
    (h : k ∉ devs.map Device.id) :
    dictGet (devs.foldl (fun out dev => dictSet out dev.id (coordinatorEntry dev)) acc) k
      = dictGet acc k := by
  induction devs generalizing acc with
  | nil => rfl
  | cons d ds ih =>
    simp only [List.map_cons, List.mem_cons] at h
    push_neg at h
    rw [List.foldl_cons, ih _ h.2, dictGet_dictSet_ne _ _ _ _ h.1]

theorem buildSnapshot_aux_get (devs : List Device) (acc : Snapshot)
    (hnd : (devs.map Device.id).Nodup) (dv : Device) (hdv : dv ∈ devs) :
    dictGet (devs.foldl (fun out dev => dictSet out dev.id (coordinatorEntry dev)) acc) dv.id
      = some (coordinatorEntry dv) := by
  induction devs generalizing acc with
  | nil => cases hdv
  | cons d ds ih =>
    rw [List.map_cons, List.nodup_cons] at hnd
    rcases List.mem_cons.mp hdv with rfl | hdv'
    · rw [List.foldl_cons, buildSnapshot_aux_untouched ds _ dv.id hnd.1,
        dictGet_dictSet_self]
    · rw [List.foldl_cons]
      exact ih _ hnd.2 hdv'

/-- C1: a poll cycle succeeds iff every configured fetch succeeds; when
the earliest failing fetch raises message m, the cycle fails carrying m
and the previous snapshot is retained exactly unchanged; when all fetches
succeed the result is the fresh snapshot keyed by the fetched devices'
ids, whose entries are the {name, room, properties} payloads, and it
fully replaces the previous snapshot. -/
theorem c1_update_all_or_nothing :
    (∀ (fetch : String → Except String Device) (ids : List String),
        (∃ s, asyncUpdateData fetch ids = .ok s) ↔ ∀ i ∈ ids, ∃ d, fetch i = .ok d)
    ∧ (∀ (fetch : String → Except String Device) (pre : List String) (b : String)
        (post : List String) (m : String) (prev : Option Snapshot),
        (∀ i ∈ pre, ∃ d, fetch i = .ok d) → fetch b = .error m →
        asyncUpdateData fetch (pre ++ b :: post) = .error m
        ∧ coordStep prev (asyncUpdateData fetch (pre ++ b :: post)) = (prev, some m))
    ∧ (∀ (fetch : String → Except String Device) (ids : List String) (prev : Option Snapshot),
        (∀ i ∈ ids, ∃ d, fetch i = .ok d) →
        ∃ devs : List Device,
          List.Forall₂ (fun i d => fetch i = .ok d) ids devs
          ∧ asyncUpdateData fetch ids = .ok (buildSnapshot devs)
          ∧ (∀ k, k ∈ dictKeys (buildSnapshot devs) ↔ k ∈ devs.map Device.id)
          ∧ ((devs.map Device.id).Nodup →
              ∀ dv ∈ devs, dictGet (buildSnapshot devs) dv.id = some (coordinatorEntry dv))
          ∧ coordStep prev (asyncUpdateData fetch ids) = (some (buildSnapshot devs), none)) := by
  refine ⟨fun fetch ids => ?_, fun fetch pre b post m prev hpre hb => ?_,
    fun fetch ids prev h => ?_⟩
  · constructor
    · rintro ⟨s, hs⟩
      cases hres : fetchAll fetch ids with
      | error e => simp [asyncUpdateData, hres] at hs
      | ok devs =>
        exact forall₂_exists_of_mem ((fetchAll_ok_iff fetch ids devs).mp hres)
    · intro h
      obtain ⟨devs, hdevs⟩ := fetchAll_total_ok fetch ids h
      exact ⟨buildSnapshot devs, by simp [asyncUpdateData, hdevs]⟩
  · have herr := fetchAll_first_error fetch pre b post m hpre hb
    exact ⟨by simp [asyncUpdateData, herr], by simp [asyncUpdateData, herr, coordStep]⟩
  · obtain ⟨devs, hdevs⟩ := fetchAll_total_ok fetch ids h
    refine ⟨devs, (fetchAll_ok_iff fetch ids devs).mp hdevs, by simp [asyncUpdateData, hdevs],
      fun k => buildSnapshot_keys devs k,
      fun hnd dv hdv => buildSnapshot_aux_get devs [] hnd dv hdv,
      by simp [asyncUpdateData, hdevs, coordStep]⟩

/-- Witness for C1: with a concrete fetch that succeeds on "g" and fails
on "x" with message "boom", the cycle over ["g", "x"] fails with "boom"
and a concrete previous snapshot is kept unchanged. -/
theorem c1_update_all_or_nothing_witness :
    asyncUpdateData (fun i => if i = "g" then .ok { id := "g", name := "n", room := none, properties := [] } else .error "boom") ["g", "x"] = .error "boom"
    ∧ coordStep (some ([("old", [])] : Snapshot)) (asyncUpdateData (fun i => if i = "g" then .ok { id := "g", name := "n", room := none, properties := [] } else .error "boom") ["g", "x"]) = (some ([("old", [])] : Snapshot), some "boom") :=
  c1_update_all_or_nothing.2.1
    (fun i => if i = "g" then .ok { id := "g", name := "n", room := none, properties := [] } else .error "boom")
    ["g"] "x" [] "boom" (some ([("old", [])] : Snapshot))
    (fun i hi => by
      simp only [List.mem_singleton] at hi
      subst hi
      exact ⟨_, rfl⟩)
    rfl

/-- C10: a status-"ok" payload lacking the "id" field makes `get_device`
fail with the untyped KeyError (never the typed ApiError); a successful
`get_device` returns the payload's reported id; the snapshot built by the
coordinator is keyed by those reported ids, so a configured id that no
payload reports is absent from the snapshot and its entities are
unavailable even though the fetch succeeded. -/
theorem c10_snapshot_keys_from_payload :
    (∀ (r : String) (data : DevicePayload),
        data.status = some "ok" → data.id = none →
        getDevice r data = .error (.keyError "id"))
    ∧ (∀ (m k : String), GetDeviceErr.keyError k ≠ GetDeviceErr.api m)
    ∧ (∀ (r : String) (data : DevicePayload) (dev : Device),
        getDevice r data = .ok dev → data.id = some dev.id)
    ∧ (∀ (devs : List Device) (k : String),
        k ∈ dictKeys (buildSnapshot devs) ↔ k ∈ devs.map Device.id)
    ∧ (∀ (devs : List Device) (r : String),
        r ∉ devs.map Device.id → availableB (some (buildSnapshot devs)) r = false) := by
  refine ⟨fun r data h1 h2 => ?_, fun m k => by simp, fun r data dev h => ?_,
    fun devs k => buildSnapshot_keys devs k, fun devs r h => ?_⟩
  · rw [getDevice, if_neg (fun hc => hc h1), h2]
  · by_cases hst : data.status = some "ok"
    · rw [getDevice, if_neg (fun hc => hc hst)] at h
      cases hid : data.id with
      | none => rw [hid] at h; cases h
      | some i =>
        rw [hid] at h
        injection h with h2
        rw [← h2]
    · rw [getDevice, if_pos hst] at h
      cases h
  · have hk := buildSnapshot_keys devs r
    simp [availableB]
    intro hmem
    exact absurd (hk.mp hmem) h

/-- Witness for C10: a concrete status-"ok" payload without "id" yields
the KeyError, and a configured id not reported by any payload is
unavailable. -/
theorem c10_snapshot_keys_from_payload_witness :
    getDevice "want" { status := some "ok", id := none, name := none, room := none, properties := none } = .error (.keyError "id")
    ∧ availableB (some (buildSnapshot [{ id := "other", name := "n", room := none, properties := [] }])) "want" = false :=
  ⟨c10_snapshot_keys_from_payload.1 "want" _ rfl rfl,
    c10_snapshot_keys_from_payload.2.2.2.2 _ "want" (by decide)⟩

end YCM

namespace YCM

/-- C8: the display name derived from a coordinator snapshot entry never
carries a room suffix, because the sensor looks the room up under the key
`"room_name"` while the coordinator stores it under `"room"`: for every
device the computed name equals the room-less spec name, and on the
concrete device ("Умное устройство" in room "Кухня", id tail "12345") the
code yields "Климатическая станция (12345)" while the specified display
name is "Климатическая станция Кухня (12345)". -/
theorem c8_room_suffix_never_applied :
    (∀ (dev : Device) (deviceId : String),
        deviceDisplayName (coordinatorEntry dev) deviceId =
          specDisplayName { id := deviceId, name := (if dev.name = "" then "Yandex Climate Module" else dev.name), room := none, properties := dev.properties })
    ∧ deviceDisplayName (coordinatorEntry ⟨"abcdef12345", "Умное устройство", some "Кухня", []⟩) "abcdef12345" = "Климатическая станция (12345)"
    ∧ specDisplayName ⟨"abcdef12345", "Умное устройство", some "Кухня", []⟩ = "Климатическая станция Кухня (12345)"
    ∧ deviceDisplayName (coordinatorEntry ⟨"abcdef12345", "Умное устройство", some "Кухня", []⟩) "abcdef12345" ≠ specDisplayName ⟨"abcdef12345", "Умное устройство", some "Кухня", []⟩ := by
  refine ⟨fun dev deviceId => ?_, by decide, by decide, by decide⟩
  by_cases h : dev.name = "" <;>
    simp [deviceDisplayName, coordinatorEntry, dictGet, specDisplayName, h]

end YCM
